import Mathlib

/-!
Shallow embedding of the retry / transcript-structuring logic of the
smolnima repository:
  * `GeminiModel.__call__` and `GeminiModel._messages_to_prompt`
    (src/agent/models/gemini.py)
  * `StreamlitCodeAgent.clean_ansi_codes` and
    `StreamlitCodeAgent.extract_useful_output` (src/streamlit_agent.py)

Python strings are modelled as Lean `String`; the Python primitives used by
the code (`in`, `str.lower`, `str.strip`, `str.startswith`, `str.replace`
with empty replacement, `str.split('\n')`) are implemented below on the
underlying character lists.  `str.lower`, `str.strip` and the regex classes
`\d`, `\s`, `[A-Za-z]` are modelled at ASCII granularity, which agrees with
Python on every character the analysed code paths and inputs involve.
Sleep durations (Python floats obtained from `retry_delay * 2**attempt` and
from parsing decimal literals such as `5.5`) are modelled as rationals; the
multiplications by powers of two and the decimal literals appearing here are
exact in binary floating point, so the rational model is faithful.
The exception machinery is modelled by strings carrying the message
(`str(e)`); the four distinct `raise` sites of `__call__` are tracked by the
four constructors of `CallResult`.
-/

namespace SmolNima

/-! ### Python string primitives -/

/-- Contiguous-substring scan on character lists. -/
def listContains (needle : List Char) : List Char → Bool
  | [] => needle.isEmpty
  | c :: rest => needle.isPrefixOf (c :: rest) || listContains needle rest

/-- Python `needle in hay` (contiguous substring test). -/
def pyIn (needle hay : String) : Bool :=
  listContains needle.data hay.data

/-- Python `s.lower()` (ASCII). -/
def pyLower (s : String) : String :=
  ⟨s.data.map Char.toLower⟩

/-- Whitespace as stripped by Python `str.strip()` (ASCII subset). -/
def pySpace (c : Char) : Bool :=
  c = ' ' || c = '\t' || c = '\n' || c = '\r'

/-- Python `s.strip()`. -/
def pyStrip (s : String) : String :=
  ⟨((s.data.dropWhile pySpace).reverse.dropWhile pySpace).reverse⟩

/-- Python `s.startswith(pre)`. -/
def pyStartswith (s pre : String) : Bool :=
  pre.data.isPrefixOf s.data

/-- Fuel-driven worker for `pyRemove` (the fuel is an upper bound on the
number of scanning steps; each step consumes at least one character, so
`cs.length` fuel always suffices). -/
def pyRemoveGo (pat : List Char) : Nat → List Char → List Char
  | 0, cs => cs
  | _ + 1, [] => []
  | fuel + 1, c :: rest =>
    if pat.isPrefixOf (c :: rest) then
      pyRemoveGo pat fuel ((c :: rest).drop pat.length)
    else
      c :: pyRemoveGo pat fuel rest

/-- Python `s.replace(pat, '')` for a non-empty `pat`: delete every
(leftmost, non-overlapping) occurrence of `pat`. -/
def pyRemove (s pat : String) : String :=
  ⟨pyRemoveGo pat.data s.data.length s.data⟩

/-- Python `s.split('\n')`. -/
def splitNlList : List Char → List (List Char)
  | [] => [[]]
  | '\n' :: rest => [] :: splitNlList rest
  | c :: rest =>
    match splitNlList rest with
    | l :: ls => (c :: l) :: ls
    | [] => [[c]]

/-- Python `s.split('\n')` on `String`s. -/
def pySplitNl (s : String) : List String :=
  (splitNlList s.data).map (fun l => ⟨l⟩)

/-- Python `'sep'.join(parts)`. -/
def joinSep (sep : String) : List String → String
  | [] => ""
  | [s] => s
  | s :: t :: rest => s ++ sep ++ joinSep sep (t :: rest)

/-! ### GeminiModel.__call__ : rate-limit classification and backoff -/

/-- The rate-limit test of the `except` handler:
`"429" in error_msg or "quota" in error_msg.lower() or "rate" in error_msg.lower()`. -/
def isRateLimit (errMsg : String) : Bool :=
  pyIn "429" errMsg || pyIn "quota" (pyLower errMsg) || pyIn "rate" (pyLower errMsg)

/-- Numeric value of a digit run (`'0'`..`'9'`). -/
def digitsVal (ds : List Char) : Nat :=
  ds.foldl (fun n c => 10 * n + (c.toNat - 48)) 0

/-- Attempt to match the regex `retry in (\d+(?:\.\d+)?)` at the head of
`cs`, returning the parsed group.  Because the quantified classes `\d+` and
`\.\d+` contain no character that can satisfy the following literal,
Python's greedy backtracking match is exactly maximal-munch here. -/
def hintAt (cs : List Char) : Option ℚ :=
  if "retry in ".data.isPrefixOf cs then
    let rest := cs.drop 9
    let ds := rest.takeWhile Char.isDigit
    if ds.isEmpty then none
    else
      match rest.drop ds.length with
      | '.' :: rest2 =>
        let fs := rest2.takeWhile Char.isDigit
        if fs.isEmpty then some (digitsVal ds : ℚ)
        else some ((digitsVal ds : ℚ) + (digitsVal fs : ℚ) / (10 : ℚ) ^ fs.length)
      | _ => some (digitsVal ds : ℚ)
  else none

/-- `re.search(r"retry in (\d+(?:\.\d+)?)", msg)`: leftmost match wins. -/
def firstRetryHint : List Char → Option ℚ
  | [] => none
  | c :: rest =>
    match hintAt (c :: rest) with
    | some q => some q
    | none => firstRetryHint rest

/-- The sleep duration computed for one rate-limited attempt:
exponential backoff `retry_delay * 2**attempt`, overridden by the first
`retry in <number>` hint found in the lowered error text, if any. -/
def effectiveDelay (retryDelay : ℚ) (attempt : Nat) (errMsg : String) : ℚ :=
  let delay := retryDelay * 2 ^ attempt
  if pyIn "retry in" (pyLower errMsg) then
    match firstRetryHint (pyLower errMsg).data with
    | some q => q
    | none => delay
  else delay

/-- Outcome of one `generate_content` round trip, as seen by the `try`
block: a successful text, a raised exception (message of `str(e)`), or a
response with an empty candidate list (carrying the block reason and
whether `prompt_feedback` is present). -/
inductive AttemptOutcome where
  | ok (text : String)
  | exn (msg : String)
  | blocked (reason : String) (hasFeedback : Bool)
deriving DecidableEq

/-- The body of the `try` block: either the returned text, or the message
of the exception that reaches the `except` handler. -/
def attemptResult : AttemptOutcome → String ⊕ String
  | .ok t => .inl t
  | .exn e => .inr e
  | .blocked reason true => .inr ("Gemini blocked the response: " ++ reason)
  | .blocked _ false => .inr "Gemini returned empty candidates (content may be blocked)"

/-- How a single `__call__` invocation ends; one constructor per `raise`
site (plus the normal return). -/
inductive CallResult where
  | returned (text : String)
  | reraised (msg : String)
  | rateLimitExceeded (msg : String)
  | fallbackFailure (msg : String)
deriving DecidableEq

/-- The retry loop of `__call__`.  `r` is the number of loop iterations
still allowed (`range(max_retries)` runs `max(max_retries, 0)` times),
`attempt` the Python loop variable, `sleeps` the accumulated `time.sleep`
durations.  Returns the result, the number of `generate_content` calls
made, and the sleep trace. -/
def goGem (env : Nat → AttemptOutcome) (maxRetries : Int) (retryDelay : ℚ) :
    Nat → Nat → List ℚ → CallResult × Nat × List ℚ
  | 0, attempt, sleeps =>
    (.fallbackFailure ("Failed after " ++ toString maxRetries ++ " attempts"), attempt, sleeps)
  | r + 1, attempt, sleeps =>
    match attemptResult (env attempt) with
    | .inl text => (.returned text, attempt + 1, sleeps)
    | .inr e =>
      if isRateLimit e then
        if (attempt : Int) < maxRetries - 1 then
          goGem env maxRetries retryDelay r (attempt + 1)
            (sleeps ++ [effectiveDelay retryDelay attempt e])
        else
          (.rateLimitExceeded
              ("Rate limit exceeded after " ++ toString maxRetries ++
                " attempts. Please wait before retrying."),
            attempt + 1, sleeps)
      else
        (.reraised e, attempt + 1, sleeps)

/-- `GeminiModel.__call__` on a fixed prompt: run the retry loop from
attempt 0 with an empty sleep trace. -/
def geminiCall (env : Nat → AttemptOutcome) (maxRetries : Int) (retryDelay : ℚ) :
    CallResult × Nat × List ℚ :=
  goGem env maxRetries retryDelay maxRetries.toNat 0 []

/-! ### GeminiModel._messages_to_prompt -/

/-- A smolagents message dict; `role` / `content` keys may be absent
(`dict.get` supplies the defaults `"user"` / `""`). -/
structure PyMessage where
  role : Option String
  content : Option String
deriving DecidableEq

/-- `msg.get("role", "user")`. -/
def msgRole (m : PyMessage) : String := m.role.getD "user"

/-- `msg.get("content", "")`. -/
def msgContent (m : PyMessage) : String := m.content.getD ""

/-- The `prompt_parts` list built by `_messages_to_prompt`: one rendered
segment per recognised role, other roles silently skipped. -/
def promptParts : List PyMessage → List String
  | [] => []
  | m :: rest =>
    let role := msgRole m
    let content := msgContent m
    if role = "system" then ("System: " ++ content) :: promptParts rest
    else if role = "user" then ("User: " ++ content) :: promptParts rest
    else if role = "assistant" then ("Assistant: " ++ content) :: promptParts rest
    else promptParts rest

/-- `GeminiModel._messages_to_prompt`: `"\n\n".join(prompt_parts)`. -/
def messagesToPrompt (msgs : List PyMessage) : String :=
  joinSep "\n\n" (promptParts msgs)

/-- Capitalised label used for each recognised role in the flattened
prompt (specification-side rendering, compared against `promptParts`). -/
def roleLabel (role : String) : String :=
  if role = "system" then "System"
  else if role = "user" then "User"
  else "Assistant"

/-! ### StreamlitCodeAgent.clean_ansi_codes

The two substitutions `re.sub(r'\x1b\[[0-9;]*m', '', ·)` and
`re.sub(r'\x1b\[[\d;]*[A-Za-z]', '', ·)`.  In both patterns the quantified
class (digits and `;`) contains no character that can satisfy the final
literal/class, so Python's backtracking match at a position is exactly:
ESC, `[`, the maximal digit-or-semicolon run, then the final character
test.  `re.sub` scans left to right and resumes after each match. -/

/-- Match `\x1b\[[0-9;]*m` at the head of `cs`; returns the match length. -/
def matchColor (cs : List Char) : Option Nat :=
  match cs with
  | '\x1b' :: '[' :: rest =>
    let run := rest.takeWhile (fun c => c.isDigit || c = ';')
    match rest.drop run.length with
    | 'm' :: _ => some (2 + run.length + 1)
    | _ => none
  | _ => none

/-- Match `\x1b\[[\d;]*[A-Za-z]` at the head of `cs`. -/
def matchExt (cs : List Char) : Option Nat :=
  match cs with
  | '\x1b' :: '[' :: rest =>
    let run := rest.takeWhile (fun c => c.isDigit || c = ';')
    match rest.drop run.length with
    | c :: _ => if c.isAlpha then some (2 + run.length + 1) else none
    | [] => none
  | _ => none

/-- One left-to-right `re.sub(pat, '', ·)` pass, driven by a head matcher.
Fuel bounds the number of scan steps; every step consumes at least one
character, so `cs.length` fuel suffices. -/
def subGo (m : List Char → Option Nat) : Nat → List Char → List Char
  | 0, cs => cs
  | _ + 1, [] => []
  | fuel + 1, c :: rest =>
    match m (c :: rest) with
    | some k => subGo m fuel ((c :: rest).drop k)
    | none => c :: subGo m fuel rest

/-- `re.sub(pat, '', s)` for a head matcher `m`. -/
def reSub (m : List Char → Option Nat) (cs : List Char) : List Char :=
  subGo m cs.length cs

/-- `StreamlitCodeAgent.clean_ansi_codes`: the first substitution, then the
second, applied to the whole text. -/
def cleanAnsiCodes (s : String) : String :=
  ⟨reSub matchExt (reSub matchColor s.data)⟩

/-! ### StreamlitCodeAgent.extract_useful_output -/

/-- One structured section of the transcript: the `type` tag string used
by the source (`'thought'`, `'code'`, `'observation'`, `'execution'`,
`'final'`) with its accumulated content lines. -/
structure PySection where
  type : String
  content : List String
deriving DecidableEq

/-- Loop state of `extract_useful_output`: completed `sections`, the
optional `current_section`, and the `in_code_block` flag. -/
structure ExtState where
  sections : List PySection
  current : Option PySection
  inCode : Bool
deriving DecidableEq

/-- `any(char in line for char in ['─', '╭', '╮', '╯', '╰', '┃', '━', '│'])`. -/
def hasBoxChar (line : String) : Bool :=
  ['─', '╭', '╮', '╯', '╰', '┃', '━', '│'].any (fun c => line.data.contains c)

/-- `re.match(r'^\s*Step \d+\s*$', line)`: optional surrounding whitespace
around `Step ` followed by one or more digits. -/
def isStepLine (line : String) : Bool :=
  let t := pyStrip line
  pyStartswith t "Step " && !(t.data.drop 5).isEmpty && (t.data.drop 5).all Char.isDigit

/-- The three skip conditions at the top of the loop body (decorative
lines, run headers, step separators). -/
def isSkippedLine (line : String) : Bool :=
  hasBoxChar line || (pyIn "New run" line || pyIn "GeminiModel" line) ||
    (isStepLine line || pyIn "Output message of the LLM:" line)

/-- The section-header detection of the `elif` chain (for a line that was
not skipped). -/
def isHeaderish (line : String) : Bool :=
  pyStartswith (pyStrip line) "Thought:" || pyStartswith (pyStrip line) "Code:" ||
    pyStartswith (pyStrip line) "Observation:" || pyIn "Execution logs:" line ||
    pyStartswith (pyStrip line) "Out -" || pyStartswith (pyStrip line) "Final answer:"

/-- A line that actually opens a new section: not skipped, and matching
one of the header patterns. -/
def isSectionHeader (line : String) : Bool :=
  !isSkippedLine line && isHeaderish line

/-- Close the current section (if any) into `sections`. -/
def pushCurrent (st : ExtState) : List PySection :=
  st.sections ++ st.current.toList

/-- One iteration of the `for line in lines` loop of
`extract_useful_output`. -/
def lineStep (st : ExtState) (line : String) : ExtState :=
  if hasBoxChar line then st
  else if pyIn "New run" line || pyIn "GeminiModel" line then st
  else if isStepLine line || pyIn "Output message of the LLM:" line then st
  else if pyStartswith (pyStrip line) "Thought:" then
    ⟨pushCurrent st, some ⟨"thought", [pyStrip (pyRemove line "Thought:")]⟩, st.inCode⟩
  else if pyStartswith (pyStrip line) "Code:" then
    ⟨pushCurrent st, some ⟨"code", []⟩, false⟩
  else if pyStartswith (pyStrip line) "Observation:" then
    ⟨pushCurrent st, some ⟨"observation", [pyStrip (pyRemove line "Observation:")]⟩, st.inCode⟩
  else if pyIn "Execution logs:" line then
    ⟨pushCurrent st, some ⟨"execution", []⟩, st.inCode⟩
  else if pyStartswith (pyStrip line) "Out -" || pyStartswith (pyStrip line) "Final answer:" then
    ⟨pushCurrent st,
      some ⟨"final", [pyStrip (pyRemove (pyRemove line "Out -") "Final answer:")]⟩, st.inCode⟩
  else
    match st.current with
    | some cur =>
      if cur.type = "code" then
        if pyIn "```py" line then ⟨st.sections, st.current, true⟩
        else if pyIn "```" line && st.inCode then ⟨st.sections, st.current, false⟩
        else if pyIn "<end_code>" line then st
        else if st.inCode || pyStrip line ≠ "" then
          ⟨st.sections, some ⟨cur.type, cur.content ++ [line]⟩, st.inCode⟩
        else st
      else
        if pyStrip line ≠ "" && !pyStartswith (pyStrip line) "[" then
          ⟨st.sections, some ⟨cur.type, cur.content ++ [pyStrip line]⟩, st.inCode⟩
        else st
    | none => st

/-- `StreamlitCodeAgent.extract_useful_output`: split on newlines, run the
loop, and close the last open section. -/
def extractUsefulOutput (text : String) : List PySection :=
  let final := (pySplitNl text).foldl lineStep ⟨[], none, false⟩
  pushCurrent final

/-! ### Step lemmas for the retry loop -/

/-- Successful attempt: the loop returns the text immediately. -/
lemma goGem_succ_inl {env : Nat → AttemptOutcome} {mr : Int} {rd : ℚ} {r attempt : Nat}
    {sleeps : List ℚ} {t : String} (he : attemptResult (env attempt) = .inl t) :
    goGem env mr rd (r + 1) attempt sleeps = (.returned t, attempt + 1, sleeps) := by
  simp [goGem, he]

/-- Rate-limited attempt with retries remaining: sleep and continue. -/
lemma goGem_succ_sleep {env : Nat → AttemptOutcome} {mr : Int} {rd : ℚ} {r attempt : Nat}
    {sleeps : List ℚ} {e : String} (he : attemptResult (env attempt) = .inr e)
    (hrl : isRateLimit e = true) (hlt : (attempt : Int) < mr - 1) :
    goGem env mr rd (r + 1) attempt sleeps =
      goGem env mr rd r (attempt + 1) (sleeps ++ [effectiveDelay rd attempt e]) := by
  simp [goGem, he, hrl, hlt]

/-- Rate-limited attempt with no retries remaining: terminal failure. -/
lemma goGem_succ_exhaust {env : Nat → AttemptOutcome} {mr : Int} {rd : ℚ} {r attempt : Nat}
    {sleeps : List ℚ} {e : String} (he : attemptResult (env attempt) = .inr e)
    (hrl : isRateLimit e = true) (hge : ¬((attempt : Int) < mr - 1)) :
    goGem env mr rd (r + 1) attempt sleeps =
      (.rateLimitExceeded
          ("Rate limit exceeded after " ++ toString mr ++
            " attempts. Please wait before retrying."),
        attempt + 1, sleeps) := by
  simp [goGem, he, hrl, hge]

/-- Non-rate-limit exception: re-raised on the spot. -/
lemma goGem_succ_reraise {env : Nat → AttemptOutcome} {mr : Int} {rd : ℚ} {r attempt : Nat}
    {sleeps : List ℚ} {e : String} (he : attemptResult (env attempt) = .inr e)
    (hrl : isRateLimit e = false) :
    goGem env mr rd (r + 1) attempt sleeps = (.reraised e, attempt + 1, sleeps) := by
  simp [goGem, he, hrl]

/-- Exact run of the loop: rate-limited `429` errors without a delay hint
on the `j` attempts starting at `a`, then a success.  The fuel is the one
`geminiCall` supplies at attempt `a`; the sleeps appended are the
exponential-backoff values. -/
lemma goGem_run_ok (env : Nat → AttemptOutcome) (mr : Int) (rd : ℚ) (errs : Nat → String)
    (t : String) :
    ∀ j a (sleeps : List ℚ),
      (∀ i, i < j → env (a + i) = .exn (errs (a + i))
          ∧ pyIn "429" (errs (a + i)) = true
          ∧ pyIn "retry in" (pyLower (errs (a + i))) = false) →
      env (a + j) = .ok t →
      ((a + j : Nat) : Int) < mr →
      goGem env mr rd (mr.toNat - a) a sleeps =
        (.returned t, a + j + 1, sleeps ++ (List.range j).map (fun i => rd * 2 ^ (a + i))) := by
  intro j
  induction j with
  | zero =>
    intro a sleeps _ hok hbound
    obtain ⟨r, hr⟩ : ∃ r, mr.toNat - a = r + 1 := ⟨mr.toNat - a - 1, by omega⟩
    rw [hr, goGem_succ_inl (t := t) (by simpa using congrArg attemptResult hok)]
    simp
  | succ j ih =>
    intro a sleeps herr hok hbound
    obtain ⟨r, hr⟩ : ∃ r, mr.toNat - a = r + 1 := ⟨mr.toNat - a - 1, by omega⟩
    obtain ⟨he, h429, hnohint⟩ := herr 0 (Nat.succ_pos j)
    rw [Nat.add_zero] at he h429 hnohint
    have hrl : isRateLimit (errs a) = true := by
      simp [isRateLimit, h429]
    have hlt : (a : Int) < mr - 1 := by
      have : ((a + (j + 1) : Nat) : Int) < mr := hbound
      push_cast at this ⊢
      omega
    rw [hr, goGem_succ_sleep (e := errs a) (by rw [he]; rfl) hrl hlt]
    have hrfuel : r = mr.toNat - (a + 1) := by omega
    have hdelay : effectiveDelay rd a (errs a) = rd * 2 ^ a := by
      simp [effectiveDelay, hnohint]
    rw [hrfuel, hdelay,
      ih (a + 1) (sleeps ++ [rd * 2 ^ a])
        (fun i hi => by
          have := herr (i + 1) (by omega)
          rwa [show a + (i + 1) = a + 1 + i by omega] at this)
        (by rwa [show a + 1 + j = a + (j + 1) by omega])
        (by rwa [show a + 1 + j = a + (j + 1) by omega])]
    simp only [Prod.mk.injEq]
    refine ⟨trivial, by omega, ?_⟩
    rw [List.range_succ_eq_map, List.map_cons, List.map_map, Nat.add_zero,
      List.append_assoc, List.singleton_append]
    have hmap : List.map (fun i => rd * 2 ^ (a + 1 + i)) (List.range j)
        = List.map ((fun i => rd * 2 ^ (a + i)) ∘ Nat.succ) (List.range j) :=
      List.map_congr_left fun i _ => by
        have h : a + 1 + i = a + (i + 1) := by omega
        simp [Function.comp, h]
    rw [hmap]
    simp

/-- The loop never reaches the post-loop fallback `raise` while at least
one iteration remains. -/
lemma goGem_no_fallback (env : Nat → AttemptOutcome) (mr : Int) (rd : ℚ) (msg : String) :
    ∀ (r a : Nat) (sleeps : List ℚ), (a : Int) + (r : Int) = mr → 1 ≤ r →
      (goGem env mr rd r a sleeps).1 ≠ .fallbackFailure msg := by
  intro r
  induction r with
  | zero => intro a sleeps _ h1; omega
  | succ r ih =>
    intro a sleeps hsum _
    cases hres : attemptResult (env a) with
    | inl t => rw [goGem_succ_inl hres]; simp
    | inr e =>
      by_cases hrl : isRateLimit e = true
      · by_cases hlt : (a : Int) < mr - 1
        · rw [goGem_succ_sleep hres hrl hlt]
          exact ih (a + 1) _ (by push_cast at hsum ⊢; omega) (by push_cast at hsum; omega)
        · rw [goGem_succ_exhaust hres hrl hlt]; simp
      · rw [goGem_succ_reraise hres (by simpa using hrl)]; simp

/-! ### Claim theorems: GeminiModel.__call__ -/

/-- C1: a response with an empty candidate list and block reason `SAFETY`
makes `__call__` raise the safety-block error after exactly one remote
attempt, with no sleeps, for every `max_retries` that allows an attempt at
all. -/
theorem gemini_safety_block_single_attempt (env : Nat → AttemptOutcome) (mr : Int) (rd : ℚ)
    (h0 : env 0 = .blocked "SAFETY" true) (hmr : 1 ≤ mr) :
    geminiCall env mr rd = (.reraised "Gemini blocked the response: SAFETY", 1, []) := by
  unfold geminiCall
  obtain ⟨r, hr⟩ : ∃ r, mr.toNat = r + 1 := ⟨mr.toNat - 1, by omega⟩
  rw [hr, goGem_succ_reraise (by rw [h0]; rfl) (by decide)]
  decide

/-- Witness for C1 at `max_retries = 5`. -/
theorem gemini_safety_block_single_attempt_witness :
    geminiCall (fun _ => .blocked "SAFETY" true) 5 2 =
      (.reraised "Gemini blocked the response: SAFETY", 1, []) :=
  gemini_safety_block_single_attempt (fun _ => .blocked "SAFETY" true) 5 2 rfl (by decide)

/-- C2, counterexample to the claim as stated: an error whose text is
exactly `"retry in 5.5"` contains the hint substring, yet `__call__`
re-raises it immediately with zero sleeps, because the text matches none
of the rate-limit markers `429` / `quota` / `rate`. -/
theorem gemini_retry_hint_unclassified_counterexample :
    pyIn "retry in 5.5" "retry in 5.5" = true ∧
      geminiCall (fun _ => AttemptOutcome.exn "retry in 5.5") 3 2 =
        (.reraised "retry in 5.5", 1, []) := by
  constructor
  · decide
  · decide

/-- C2, amended: when a rate-limited attempt with retries remaining raises
an error text whose first `retry in <number>` hint parses to `q`, the
sleep recorded for that attempt is `q` (the hint overrides the exponential
schedule); an attempt whose error carries no hint sleeps the computed
`retry_delay * 2 ^ attempt`, so the override applies per attempt only. -/
theorem gemini_retry_hint_override (env : Nat → AttemptOutcome) (mr : Int) (rd : ℚ)
    (r attempt : Nat) (sleeps : List ℚ) (e : String)
    (he : env attempt = .exn e) (hrl : isRateLimit e = true)
    (hlt : (attempt : Int) < mr - 1) :
    goGem env mr rd (r + 1) attempt sleeps =
      goGem env mr rd r (attempt + 1) (sleeps ++ [effectiveDelay rd attempt e])
    ∧ (∀ q, pyIn "retry in" (pyLower e) = true →
        firstRetryHint (pyLower e).data = some q → effectiveDelay rd attempt e = q)
    ∧ (pyIn "retry in" (pyLower e) = false →
        effectiveDelay rd attempt e = rd * 2 ^ attempt) := by
  refine ⟨goGem_succ_sleep (by rw [he]; rfl) hrl hlt, fun q h1 h2 => ?_, fun h1 => ?_⟩
  · simp [effectiveDelay, h1, h2]
  · simp [effectiveDelay, h1]

/-- Witness for the amended C2: the error `"429 retry in 5.5"` at attempt 0
sleeps exactly `5.5`. -/
theorem gemini_retry_hint_override_witness :
    goGem (fun _ => AttemptOutcome.exn "429 retry in 5.5") 3 2 3 0 [] =
      goGem (fun _ => AttemptOutcome.exn "429 retry in 5.5") 3 2 2 1
        [effectiveDelay 2 0 "429 retry in 5.5"]
    ∧ effectiveDelay 2 0 "429 retry in 5.5" = 11 / 2 := by
  have h := gemini_retry_hint_override (fun _ => AttemptOutcome.exn "429 retry in 5.5") 3 2 2 0 []
    "429 retry in 5.5" rfl (by decide) (by decide)
  have hval : firstRetryHint (pyLower "429 retry in 5.5").data =
      some ((5 : ℚ) + (5 : ℚ) / 10 ^ 1) := rfl
  have hq : ((5 : ℚ) + (5 : ℚ) / 10 ^ 1) = 11 / 2 := by norm_num
  exact ⟨h.1, by rw [h.2.1 ((5 : ℚ) + (5 : ℚ) / 10 ^ 1) (by decide) hval]; exact hq⟩

/-- C8: an exception whose text contains none of `429`, `quota`, `rate`
(case-insensitively) is re-raised unchanged on the same attempt, with no
sleep and no further attempt. -/
theorem gemini_non_rate_limit_reraise (env : Nat → AttemptOutcome) (mr : Int) (rd : ℚ)
    (r attempt : Nat) (sleeps : List ℚ) (e : String)
    (he : env attempt = .exn e)
    (h429 : pyIn "429" e = false) (hquota : pyIn "quota" (pyLower e) = false)
    (hrate : pyIn "rate" (pyLower e) = false) :
    goGem env mr rd (r + 1) attempt sleeps = (.reraised e, attempt + 1, sleeps) :=
  goGem_succ_reraise (by rw [he]; rfl)
    (by unfold isRateLimit; rw [h429, hquota, hrate]; rfl)

/-- Witness for C8: the error `"boom"` at attempt 0 is re-raised at once. -/
theorem gemini_non_rate_limit_reraise_witness :
    goGem (fun _ => AttemptOutcome.exn "boom") 3 2 3 0 [] = (.reraised "boom", 1, []) :=
  gemini_non_rate_limit_reraise (fun _ => AttemptOutcome.exn "boom") 3 2 2 0 [] "boom" rfl
    (by decide) (by decide) (by decide)

/-- C4: with `max_retries = 3` and rate-limit-classified errors on all
three attempts, `__call__` raises the terminal rate-limit failure after
exactly 3 attempts and exactly 2 sleeps. -/
theorem gemini_rate_limit_exhaustion (env : Nat → AttemptOutcome) (rd : ℚ) (e0 e1 e2 : String)
    (h0 : env 0 = .exn e0) (h1 : env 1 = .exn e1) (h2 : env 2 = .exn e2)
    (hr0 : isRateLimit e0 = true) (hr1 : isRateLimit e1 = true) (hr2 : isRateLimit e2 = true) :
    geminiCall env 3 rd =
      (.rateLimitExceeded "Rate limit exceeded after 3 attempts. Please wait before retrying.",
        3, [effectiveDelay rd 0 e0, effectiveDelay rd 1 e1]) := by
  unfold geminiCall
  rw [show ((3 : Int).toNat) = 2 + 1 from rfl,
    goGem_succ_sleep (by rw [h0]; rfl) hr0 (by decide),
    show (2 : Nat) = 1 + 1 from rfl,
    goGem_succ_sleep (by rw [h1]; rfl) hr1 (by decide),
    show (1 : Nat) = 0 + 1 from rfl,
    goGem_succ_exhaust (by rw [h2]; rfl) hr2 (by decide)]
  simp
  decide

/-- Witness for C4 with the error `"429"` on every attempt. -/
theorem gemini_rate_limit_exhaustion_witness :
    geminiCall (fun _ => AttemptOutcome.exn "429") 3 2 =
      (.rateLimitExceeded "Rate limit exceeded after 3 attempts. Please wait before retrying.",
        3, [effectiveDelay 2 0 "429", effectiveDelay 2 1 "429"]) :=
  gemini_rate_limit_exhaustion (fun _ => AttemptOutcome.exn "429") 2 "429" "429" "429"
    rfl rfl rfl (by decide) (by decide) (by decide)

/-- C3: `429` errors without a delay hint on attempts `1..k-1` and a
success on attempt `k ≤ max_retries` make `__call__` return the success
text after exactly `k - 1` sleeps, whose (exponential-backoff) durations
are non-decreasing for any non-negative `retry_delay`. -/
theorem gemini_retry_until_success (env : Nat → AttemptOutcome) (mr : Int) (rd : ℚ)
    (errs : Nat → String) (t : String) (k : Nat)
    (hk1 : 1 ≤ k) (hkm : (k : Int) ≤ mr) (hrd : 0 ≤ rd)
    (herr : ∀ i, i < k - 1 → env i = .exn (errs i)
        ∧ pyIn "429" (errs i) = true
        ∧ pyIn "retry in" (pyLower (errs i)) = false)
    (hok : env (k - 1) = .ok t) :
    geminiCall env mr rd = (.returned t, k, (List.range (k - 1)).map (fun i => rd * 2 ^ i))
    ∧ ((List.range (k - 1)).map (fun i => rd * 2 ^ i)).length = k - 1
    ∧ List.Chain' (· ≤ ·) ((List.range (k - 1)).map (fun i => rd * 2 ^ i)) := by
  have hchain : ∀ n : Nat, List.Chain' (· ≤ ·) ((List.range n).map (fun i => rd * 2 ^ i)) := by
    intro n
    rw [List.chain'_map]
    cases n with
    | zero => simp
    | succ n =>
      rw [List.chain'_range_succ]
      intro m _
      exact mul_le_mul_of_nonneg_left
        (pow_le_pow_right₀ (by norm_num) (Nat.le_succ m)) hrd
  have hrun := goGem_run_ok env mr rd errs t (k - 1) 0 []
    (fun i hi => by simpa using herr i hi)
    (by simpa using hok)
    (by push_cast; omega)
  refine ⟨?_, by simp, hchain (k - 1)⟩
  unfold geminiCall
  rw [show mr.toNat - 0 = mr.toNat from rfl] at hrun
  rw [hrun]
  simp only [List.nil_append, Nat.zero_add]
  rw [Nat.sub_add_cancel hk1]

/-- Witness for C3: `k = 3`, `max_retries = 3`, two `429` failures then a
success. -/
theorem gemini_retry_until_success_witness :
    geminiCall (fun n => if n < 2 then AttemptOutcome.exn "429" else AttemptOutcome.ok "yay") 3 2 =
      (.returned "yay", 3, (List.range 2).map (fun i => (2 : ℚ) * 2 ^ i))
    ∧ ((List.range 2).map (fun i => (2 : ℚ) * 2 ^ i)).length = 2
    ∧ List.Chain' (· ≤ ·) ((List.range 2).map (fun i => (2 : ℚ) * 2 ^ i)) := by
  have h := gemini_retry_until_success
    (fun n => if n < 2 then AttemptOutcome.exn "429" else AttemptOutcome.ok "yay") 3 2
    (fun _ => "429") "yay" 3 (by decide) (by decide) (by norm_num)
    (fun i hi => by interval_cases i <;> exact ⟨rfl, by decide, by decide⟩)
    (by decide)
  exact h

/-- C10: with non-positive `max_retries` the loop body never runs, so
`__call__` raises the fallback failure with zero remote calls and zero
sleeps; with `max_retries ≥ 1` the fallback `raise` after the loop is
unreachable. -/
theorem gemini_fallback_iff_nonpositive :
    (∀ (env : Nat → AttemptOutcome) (rd : ℚ) (mr : Int), mr ≤ 0 →
      geminiCall env mr rd =
        (.fallbackFailure ("Failed after " ++ toString mr ++ " attempts"), 0, []))
    ∧ (∀ (env : Nat → AttemptOutcome) (rd : ℚ) (mr : Int) (msg : String), 1 ≤ mr →
      (geminiCall env mr rd).1 ≠ .fallbackFailure msg) := by
  constructor
  · intro env rd mr hmr
    unfold geminiCall
    rw [show mr.toNat = 0 by omega]
    rfl
  · intro env rd mr msg hmr
    exact goGem_no_fallback env mr rd msg mr.toNat 0 [] (by omega) (by omega)

/-- Witness for C10 at `max_retries = 0` and `max_retries = 1`. -/
theorem gemini_fallback_iff_nonpositive_witness :
    geminiCall (fun _ => AttemptOutcome.ok "x") 0 2 =
      (.fallbackFailure "Failed after 0 attempts", 0, [])
    ∧ (geminiCall (fun _ => AttemptOutcome.ok "x") 1 2).1 ≠ .fallbackFailure "m" := by
  constructor
  · have h := gemini_fallback_iff_nonpositive.1 (fun _ => AttemptOutcome.ok "x") 2 0 (by decide)
    simpa using h
  · exact gemini_fallback_iff_nonpositive.2 (fun _ => AttemptOutcome.ok "x") 2 1 "m" (by decide)

/-! ### Claim theorems: _messages_to_prompt -/

/-- Helper: under recognised roles, the `prompt_parts` list is exactly the
role-labelled rendering of each message, in order. -/
lemma promptParts_map (l : List PyMessage)
    (h : ∀ m ∈ l, msgRole m = "system" ∨ msgRole m = "user" ∨ msgRole m = "assistant") :
    promptParts l = l.map (fun m => roleLabel (msgRole m) ++ ": " ++ msgContent m) := by
  induction l with
  | nil => rfl
  | cons m rest ih =>
    have hm := h m (List.mem_cons_self m rest)
    have hrest : ∀ x ∈ rest, msgRole x = "system" ∨ msgRole x = "user" ∨ msgRole x = "assistant" :=
      fun x hx => h x (List.mem_cons_of_mem m hx)
    rcases hm with h1 | h1 | h1 <;> simp [promptParts, roleLabel, h1, ih hrest]

/-- C5: for a conversation whose roles are all recognised, the flattened
prompt consists of exactly one `<Role>: <content>` segment per message, in
order, joined by the double-newline separator. -/
theorem prompt_role_segments (msgs : List PyMessage)
    (h : ∀ m ∈ msgs, msgRole m = "system" ∨ msgRole m = "user" ∨ msgRole m = "assistant") :
    promptParts msgs = msgs.map (fun m => roleLabel (msgRole m) ++ ": " ++ msgContent m)
    ∧ (promptParts msgs).length = msgs.length
    ∧ messagesToPrompt msgs
        = joinSep "\n\n" (msgs.map (fun m => roleLabel (msgRole m) ++ ": " ++ msgContent m)) := by
  have key := promptParts_map msgs h
  refine ⟨key, by rw [key]; simp, ?_⟩
  unfold messagesToPrompt
  rw [key]

/-- Witness for C5 on a three-message conversation. -/
theorem prompt_role_segments_witness :
    promptParts [⟨some "system", some "be nice"⟩, ⟨some "user", some "hi"⟩, ⟨none, none⟩]
        = List.map (fun m => roleLabel (msgRole m) ++ ": " ++ msgContent m)
            [⟨some "system", some "be nice"⟩, ⟨some "user", some "hi"⟩, ⟨none, none⟩]
    ∧ (promptParts [⟨some "system", some "be nice"⟩, ⟨some "user", some "hi"⟩,
          ⟨none, none⟩]).length = 3
    ∧ messagesToPrompt [⟨some "system", some "be nice"⟩, ⟨some "user", some "hi"⟩, ⟨none, none⟩]
        = joinSep "\n\n" (List.map (fun m => roleLabel (msgRole m) ++ ": " ++ msgContent m)
            [⟨some "system", some "be nice"⟩, ⟨some "user", some "hi"⟩, ⟨none, none⟩]) :=
  prompt_role_segments
    [⟨some "system", some "be nice"⟩, ⟨some "user", some "hi"⟩, ⟨none, none⟩]
    (by decide)

/-! ### Claim theorems: clean_ansi_codes -/

/-- A scanning substitution pass leaves any ESC-free text unchanged, for a
matcher that requires ESC at the match start. -/
lemma subGo_esc_free (m : List Char → Option Nat)
    (hm : ∀ (c : Char) (rest : List Char), c ≠ '\x1b' → m (c :: rest) = none) :
    ∀ (fuel : Nat) (cs : List Char), '\x1b' ∉ cs → subGo m fuel cs = cs := by
  intro fuel
  induction fuel with
  | zero => intro cs _; rfl
  | succ fuel ih =>
    intro cs hcs
    cases cs with
    | nil => rfl
    | cons c rest =>
      have hc : c ≠ '\x1b' := fun h => hcs (h ▸ List.mem_cons_self c rest)
      have hr : '\x1b' ∉ rest := fun h => hcs (List.mem_cons_of_mem c h)
      simp [subGo, hm c rest hc, ih rest hr]

/-- `matchColor` only fires on a leading ESC. -/
lemma matchColor_ne_esc (c : Char) (rest : List Char) (hc : c ≠ '\x1b') :
    matchColor (c :: rest) = none := by
  unfold matchColor
  split
  · next heq => injection heq with h1 _; exact absurd h1 hc
  · rfl

/-- `matchExt` only fires on a leading ESC. -/
lemma matchExt_ne_esc (c : Char) (rest : List Char) (hc : c ≠ '\x1b') :
    matchExt (c :: rest) = none := by
  unfold matchExt
  split
  · next heq => injection heq with h1 _; exact absurd h1 hc
  · rfl

/-- `clean_ansi_codes` fixes every ESC-free string. -/
lemma cleanAnsiCodes_esc_free (y : String) (hy : '\x1b' ∉ y.data) : cleanAnsiCodes y = y := by
  unfold cleanAnsiCodes reSub
  rw [subGo_esc_free matchColor (fun c r hc => matchColor_ne_esc c r hc) _ _ hy,
    subGo_esc_free matchExt (fun c r hc => matchExt_ne_esc c r hc) _ _ hy]

/-- C7, counterexample to the claim as stated: on `"\x1b[0\x1b[1Am"` the
first cleaning pass yields `"\x1b[0m"` (removing the inner sequence glues a
new one together), and a second pass strips that too, so cleaning is not
idempotent. -/
theorem clean_ansi_not_idempotent_counterexample :
    cleanAnsiCodes "\x1b[0\x1b[1Am" = "\x1b[0m"
    ∧ cleanAnsiCodes (cleanAnsiCodes "\x1b[0\x1b[1Am") = ""
    ∧ cleanAnsiCodes (cleanAnsiCodes "\x1b[0\x1b[1Am") ≠ cleanAnsiCodes "\x1b[0\x1b[1Am" := by
  refine ⟨by decide, by decide, by decide⟩

/-- C7, amended: cleaning is idempotent on every input whose cleaned form
contains no remaining ESC character (in particular on all ESC-free
inputs); both substitutions only remove ESC-initiated sequences. -/
theorem clean_ansi_idempotent_when_esc_free (x : String)
    (h : '\x1b' ∉ (cleanAnsiCodes x).data) :
    cleanAnsiCodes (cleanAnsiCodes x) = cleanAnsiCodes x :=
  cleanAnsiCodes_esc_free (cleanAnsiCodes x) h

/-- Witness for the amended C7 on `"\x1b[31mhi"`. -/
theorem clean_ansi_idempotent_when_esc_free_witness :
    '\x1b' ∉ (cleanAnsiCodes "\x1b[31mhi").data
    ∧ cleanAnsiCodes (cleanAnsiCodes "\x1b[31mhi") = cleanAnsiCodes "\x1b[31mhi" :=
  ⟨by decide, clean_ansi_idempotent_when_esc_free "\x1b[31mhi" (by decide)⟩

/-! ### Claim theorems: extract_useful_output -/

/-- C6: the canonical transcript splits into the four expected sections in
order, with the decoration lines removed and the code fence stripped. -/
theorem extract_transcript_example :
    extractUsefulOutput
        "Thought: plan\nCode:\n```py\nx=1\n```\n<end_code>\nObservation: ok\nFinal answer: 42" =
      [⟨"thought", ["plan"]⟩, ⟨"code", ["x=1"]⟩, ⟨"observation", ["ok"]⟩, ⟨"final", ["42"]⟩] := by
  decide

/-- Any line matching one of the three skip conditions leaves the loop
state untouched. -/
lemma lineStep_skipped (line : String) (hsk : isSkippedLine line = true) (st : ExtState) :
    lineStep st line = st := by
  unfold lineStep
  by_cases h1 : hasBoxChar line = true
  · simp [h1]
  · by_cases h2 : pyIn "New run" line = true
    · simp [h1, h2]
    · by_cases h3 : pyIn "GeminiModel" line = true
      · simp [h1, h2, h3]
      · have h4 : (isStepLine line || pyIn "Output message of the LLM:" line) = true := by
          unfold isSkippedLine at hsk
          simp [h1, h2, h3] at hsk
          simp [hsk]
        simp [h1, h2, h3, h4]

/-- With no open section, a non-header line (skipped or not) is dropped. -/
lemma lineStep_no_header_none (line : String) (secs : List PySection) (icb : Bool)
    (hh : isHeaderish line = false) :
    lineStep ⟨secs, none, icb⟩ line = ⟨secs, none, icb⟩ := by
  unfold isHeaderish at hh
  simp only [Bool.or_eq_false_iff] at hh
  obtain ⟨⟨⟨⟨⟨hT, hC⟩, hO⟩, hE⟩, hOut⟩, hF⟩ := hh
  by_cases h1 : hasBoxChar line = true
  · simp [lineStep, h1]
  · by_cases h2 : pyIn "New run" line = true
    · simp [lineStep, h1, h2]
    · by_cases h3 : pyIn "GeminiModel" line = true
      · simp [lineStep, h1, h2, h3]
      · by_cases h4 : isStepLine line = true
        · simp [lineStep, h1, h2, h3, h4]
        · by_cases h5 : pyIn "Output message of the LLM:" line = true
          · simp [lineStep, h1, h2, h3, h4, h5]
          · simp [lineStep, h1, h2, h3, h4, h5, hT, hC, hO, hE, hOut, hF]

/-- In an open non-code section, a non-skipped non-header line whose
stripped text starts with `[` is dropped. -/
lemma lineStep_bracket_drop (line : String) (secs : List PySection) (icb : Bool)
    (t : String) (c : List String) (hsk : isSkippedLine line = false)
    (hh : isHeaderish line = false) (ht : t ≠ "code")
    (hbr : pyStartswith (pyStrip line) "[" = true) :
    lineStep ⟨secs, some ⟨t, c⟩, icb⟩ line = ⟨secs, some ⟨t, c⟩, icb⟩ := by
  unfold isSkippedLine at hsk
  simp only [Bool.or_eq_false_iff] at hsk
  obtain ⟨⟨h1, h2, h3⟩, h4, h5⟩ := hsk
  unfold isHeaderish at hh
  simp only [Bool.or_eq_false_iff] at hh
  obtain ⟨⟨⟨⟨⟨hT, hC⟩, hO⟩, hE⟩, hOut⟩, hF⟩ := hh
  simp [lineStep, h1, h2, h3, h4, h5, hT, hC, hO, hE, hOut, hF, ht, hbr]

/-- C9, counterexample to the claim as stated: inside a code section the
line `[1]` starts with `[` and yet is kept as content. -/
theorem extract_bracket_in_code_counterexample :
    extractUsefulOutput "Code:\n```py\n[1]\n```" = [⟨"code", ["[1]"]⟩]
    ∧ pyStartswith (pyStrip "[1]") "[" = true := by
  refine ⟨by decide, by decide⟩

/-- C9, amended: every line that is not a recognised section header is
dropped while no section is open; and a content line whose stripped text
starts with `[` is dropped whenever the open section is not a code
section (inside code sections such lines are kept). -/
theorem extract_drop_rules (line : String) (secs : List PySection) (icb : Bool)
    (t : String) (c : List String) :
    (isSectionHeader line = false →
      lineStep ⟨secs, none, icb⟩ line = ⟨secs, none, icb⟩)
    ∧ (isSkippedLine line = false → isHeaderish line = false → t ≠ "code" →
      pyStartswith (pyStrip line) "[" = true →
      lineStep ⟨secs, some ⟨t, c⟩, icb⟩ line = ⟨secs, some ⟨t, c⟩, icb⟩) := by
  constructor
  · intro h
    unfold isSectionHeader at h
    cases hsk : isSkippedLine line with
    | true => exact lineStep_skipped line hsk _
    | false =>
      have hh : isHeaderish line = false := by simpa [hsk] using h
      exact lineStep_no_header_none line secs icb hh
  · intro hsk hh ht hbr
    exact lineStep_bracket_drop line secs icb t c hsk hh ht hbr

/-- Witness for the amended C9: a plain line is dropped before any header,
and a bracketed line is dropped inside a thought section. -/
theorem extract_drop_rules_witness :
    lineStep ⟨[], none, false⟩ "hello" = ⟨[], none, false⟩
    ∧ lineStep ⟨[], some ⟨"thought", []⟩, false⟩ " [note] " = ⟨[], some ⟨"thought", []⟩, false⟩ :=
  ⟨(extract_drop_rules "hello" [] false "x" []).1 (by decide),
    (extract_drop_rules " [note] " [] false "thought" []).2 (by decide) (by decide)
      (by decide) (by decide)⟩

end SmolNima
